import Mathlib

/-!
Verification of the send-side stream manager (`src/proto/streams/send.rs`).

The `Send` struct and all of its methods are translated directly from the
source.  Collaborator types that live outside the provided source tree
(the flow-control window, the per-stream record, the prioritizer and the
intrusive stream store) are modelled from the specification; each such
definition carries a doc comment starting with `Modelled from the spec:`.

Machine integers are modelled as `Nat`/`Int`: `WindowSize` is a signed
32-bit quantity in the specification, rendered here as `Int`; `usize`
is rendered as `Nat` with the 64-bit bound made explicit where the code
compares against `usize::MAX`.  Rust panics (`unimplemented!()`,
underflow in checked builds, failing `.expect`) are rendered as `none`
in an `Option`-typed result.
-/

namespace H2Send

/-- Modelled from the spec: maximum legal flow-control window size,
`2^31 - 1` (31-bit non-negative values per RFC 7540).  The constant
`MAX_WINDOW_SIZE` itself is defined outside the provided source tree. -/
def MAX_WINDOW_SIZE : Int := 2 ^ 31 - 1

/-- Modelled from the spec: the value of `usize::MAX` on the (64-bit)
target, used by `dec_num_streams` via `unwrap_or(usize::MAX)`. -/
def USIZE_MAX : Nat := 2 ^ 64 - 1

/-- Modelled from the spec: the per-entity flow-control window
(`FlowControl`, defined outside the provided source tree).  A signed
capacity counter with expand/shrink/claim operations; window-update
expansions may be queued (`pending`) before being folded into the
applied part (`window`) by `apply_window_update`.  The effective window
counts both parts. -/
structure FlowControl where
  window : Int
  pending : Int
deriving Repr, DecidableEq

/-- Modelled from the spec: bytes the entity may still send, after all
expansions and shrinks (may be negative after a SETTINGS shrink). -/
def FlowControl.effective_window_size (fc : FlowControl) : Int :=
  fc.window + fc.pending

/-- Modelled from the spec: fold any queued window-update expansion into
the applied window. -/
def FlowControl.apply_window_update (fc : FlowControl) : FlowControl :=
  { window := fc.window + fc.pending, pending := 0 }

/-- Modelled from the spec: expand the window by a (non-negative 31-bit)
increment from a WINDOW_UPDATE frame. -/
def FlowControl.expand_window (fc : FlowControl) (inc : Int) : FlowControl :=
  { fc with pending := fc.pending + inc }

/-- Modelled from the spec: shrink the effective window by the given
amount; the result may be negative. -/
def FlowControl.shrink_window (fc : FlowControl) (dec : Int) : FlowControl :=
  { fc with window := fc.window - dec }

/-- Modelled from the spec: check that `n` bytes fit within the
currently advertised (effective) window. -/
def FlowControl.ensure_window (fc : FlowControl) (n : Int) : Bool :=
  n ≤ fc.effective_window_size

/-- Modelled from the spec: claim `n` bytes from the window, failing
(`none`) if the window does not hold them. -/
def FlowControl.claim_window (fc : FlowControl) (n : Int) : Option FlowControl :=
  if n ≤ fc.effective_window_size then
    some { fc with window := fc.window - n }
  else
    none

/-- User-facing error variants referenced by `send.rs` (`error::User`). -/
inductive UserError where
  | Rejected
  | UnexpectedFrameType
  | InactiveStreamId
  | FlowControlViolation
  | ProtocolError
deriving Repr, DecidableEq

/-- Modelled from the spec: the send-side fields of one stream record
(`Stream`, defined outside the provided source tree).  `flow` is the
send-flow-control handle, present exactly while the stream's state
permits sending; `closed` is `state.is_closed()`; `send_task` records
whether a task is parked waiting to send on this stream; `notified`
records whether that task has been woken (a `notify_send` event). -/
structure StreamRec where
  flow : Option FlowControl
  closed : Bool
  unadvertised_send_window : Int
  is_pending_send_capacity : Bool
  send_task : Bool
  notified : Bool
deriving Repr, DecidableEq

/-- Modelled from the spec: wake the task parked on this stream, if any
(`notify_send` takes the stored task and notifies it). -/
def StreamRec.notify_send (st : StreamRec) : StreamRec :=
  { st with send_task := false, notified := st.notified || st.send_task }

/-- Modelled from the spec: drive the stream's "send close" transition;
sending on the stream is no longer permitted afterwards, so the
send-flow-control handle disappears. -/
def StreamRec.send_close (st : StreamRec) : StreamRec :=
  { st with flow := none }

/-- Modelled from the spec: the prioritization layer (`Prioritize`,
defined outside the provided source tree).  It owns the
connection-level send window (`available`) and the queue of frames
awaiting serialization, modelled by its length (`queued`). -/
structure Prioritize where
  available : Int
  queued : Nat
deriving Repr, DecidableEq

/-- Modelled from the spec: expand the connection-level window by a
WINDOW_UPDATE increment. -/
def Prioritize.recv_window_update (p : Prioritize) (inc : Int) : Prioritize :=
  { p with available := p.available + inc }

/-- Modelled from the spec: hand one frame to the write scheduler. -/
def Prioritize.queue_frame (p : Prioritize) : Prioritize :=
  { p with queued := p.queued + 1 }

/-- Connection configuration consumed by `Send::new`. -/
structure Config where
  max_local_initiated : Option Nat
  init_local_window_sz : Int
deriving Repr, DecidableEq

/-- The fields of a SETTINGS frame read by `apply_remote_settings`. -/
structure SettingsFrame where
  max_concurrent_streams : Option Nat
  initial_window_size : Option Int
deriving Repr, DecidableEq

/-- Modelled from the spec: the stream store is an arena of records
addressed by stable handles; we render it as a total map from handles. -/
abbrev Store := Nat → StreamRec

/-- Modelled from the spec: write back one stream record. -/
def updateStore (store : Store) (k : Nat) (st : StreamRec) : Store :=
  fun j => if j = k then st else store j

/-- The send half of the streams state (`Send<B>` in `send.rs`).
`pending_capacity` holds the handles of streams waiting for outbound
connection capacity; `blocked_open` records whether a task is parked
awaiting admission capacity. -/
structure Send where
  max_streams : Option Nat
  num_streams : Nat
  next_stream_id : Nat
  init_window_sz : Int
  pending_capacity : List Nat
  blocked_open : Bool
  prioritize : Prioritize
deriving Repr, DecidableEq

/-- `Send::new`: next stream id starts at 2 for a server, 1 for a
client (`StreamId::increment`, outside the source tree, advances by 2
per the spec). -/
def Send.new (is_server : Bool) (config : Config) : Send :=
  { max_streams := config.max_local_initiated
    num_streams := 0
    next_stream_id := if is_server then 2 else 1
    init_window_sz := config.init_local_window_sz
    pending_capacity := []
    blocked_open := false
    prioritize := { available := 0, queued := 0 } }

/-- `Send::ensure_can_open`: servers cannot open streams. -/
def Send.ensure_can_open (is_server : Bool) : Except UserError Unit :=
  if is_server then .error .UnexpectedFrameType else .ok ()

/-- `Send::open`: validate the role, reject at the concurrent-stream
cap, otherwise allocate the next stream id, bump `num_streams` and
advance `next_stream_id` by 2.  Returns the result together with the
(possibly unchanged) state. -/
def Send.open (is_server : Bool) (s : Send) : Except UserError Nat × Send :=
  match Send.ensure_can_open is_server with
  | .error e => (.error e, s)
  | .ok _ =>
    let rejected :=
      match s.max_streams with
      | some max => decide (max ≤ s.num_streams)
      | none => false
    if rejected then
      (.error .Rejected, s)
    else
      (.ok s.next_stream_id,
        { s with
            num_streams := s.num_streams + 1
            next_stream_id := s.next_stream_id + 2 })

/-- `Send::send_data` (payload size `sz` in bytes).  Result `none`
renders a panic (`unimplemented!()` on oversized payloads, or the
`.expect` on `claim_window`); otherwise the user-level result is
returned together with the final `Send` and stream states. -/
def Send.send_data (sz : Nat) (end_stream : Bool) (s : Send) (st : StreamRec) :
    Option (Except UserError Unit × Send × StreamRec) :=
  if MAX_WINDOW_SIZE.toNat < sz then
    none
  else
    let szI : Int := sz
    match st.flow with
    | none =>
      if st.closed then
        some (.error .InactiveStreamId, s, st)
      else
        some (.error .UnexpectedFrameType, s, st)
    | some flow =>
      if flow.ensure_window (szI + st.unadvertised_send_window) then
        match flow.claim_window szI with
        | none => none
        | some flow₁ =>
          let st₁ := { st with flow := some flow₁ }
          let st₂ := if end_stream then st₁.send_close else st₁
          some (.ok (), { s with prioritize := s.prioritize.queue_frame }, st₂)
      else
        some (.error .FlowControlViolation, s, st)

/-- `Send::recv_stream_window_update` for the stream with handle `k`:
expand the stream window by the frame's increment; if the connection
window does not cover the new effective window, record the excess as
`unadvertised_send_window` and enqueue the stream (guarded by the
`is_pending_send_capacity` flag); notify the stream's task unless the
entire increment was absorbed into the unadvertised amount. -/
def Send.recv_stream_window_update (inc : Int) (k : Nat) (s : Send) (st : StreamRec) :
    Send × StreamRec :=
  let connection := s.prioritize.available
  let unadvertised := st.unadvertised_send_window
  match st.flow with
  | none => (s, st)
  | some flow =>
    let flow₁ := flow.expand_window inc
    let eff := flow₁.effective_window_size
    let st₁ := { st with flow := some flow₁ }
    let step :=
      if connection < eff then
        let st₂ := { st₁ with unadvertised_send_window := eff - connection }
        if st₂.is_pending_send_capacity then
          (s, st₂)
        else
          ({ s with pending_capacity := s.pending_capacity ++ [k] },
            { st₂ with is_pending_send_capacity := true })
      else
        (s, st₁)
    if step.2.unadvertised_send_window = inc + unadvertised then
      step
    else
      (step.1, step.2.notify_send)

/-- The body of the `retain` closure in
`Send::recv_connection_window_update`: given the connection window
`c`, decide whether the visited stream stays in `pending_capacity`
(second component) and how its record changes. -/
def connRetainStep (c : Int) (st : StreamRec) : StreamRec × Bool :=
  if st.unadvertised_send_window = 0 then
    ({ st with is_pending_send_capacity := false }, false)
  else
    match st.flow with
    | none => ({ st with is_pending_send_capacity := false }, false)
    | some flow =>
      let eff := flow.effective_window_size
      if c ≤ eff - st.unadvertised_send_window then
        (st, true)
      else
        let st₁ :=
          if eff ≤ c then
            { st with unadvertised_send_window := 0 }
          else
            { st with unadvertised_send_window := eff - c }
        (st₁.notify_send, true)

/-- Modelled from the spec: `store::List::retain` walks the intrusive
queue once in order, applies the predicate to each member (the
predicate may mutate the visited stream) and keeps exactly the members
for which it returns true. -/
def retainCapacity (c : Int) (store : Store) : List Nat → Store × List Nat
  | [] => (store, [])
  | k :: ks =>
    let r := connRetainStep c (store k)
    let rest := retainCapacity c (updateStore store k r.1) ks
    (rest.1, if r.2 then k :: rest.2 else rest.2)

/-- `Send::recv_connection_window_update`: expand the connection
window, then walk `pending_capacity` once with the retain step. -/
def Send.recv_connection_window_update (inc : Int) (s : Send) (store : Store) :
    Send × Store :=
  let p := s.prioritize.recv_window_update inc
  let connection := p.available
  let r := retainCapacity connection store s.pending_capacity
  ({ s with prioritize := p, pending_capacity := r.2 }, r.1)

/-- `Send::window_size`: register the current task as the stream's
waiter, fold queued window updates into the effective window, and
return `max(0, effective_window - unadvertised_send_window)` as a
`usize`; 0 if the stream has no send-flow-control handle. -/
def Send.window_size (st : StreamRec) : StreamRec × Nat :=
  match st.flow with
  | none => (st, 0)
  | some flow =>
    let st₁ := { st with send_task := true }
    let flow₁ := flow.apply_window_update
    let window := flow₁.effective_window_size
    let st₂ := { st₁ with flow := some flow₁ }
    if window < st₂.unadvertised_send_window then
      (st₂, 0)
    else
      (st₂, (window - st₂.unadvertised_send_window).toNat)

/-- The stream state established by the SETTINGS shrink body just
before its `unimplemented!()` panic (lines 334-344 of `send.rs`): for
a stream with an active handle, the window is shrunk by the NEW
initial-window value `val` (not the delta), and the unadvertised
amount is reduced by the delta `dec`, floored at zero. -/
def shrinkPrePanic (val dec : Int) (st : StreamRec) : StreamRec :=
  match st.flow with
  | some flow =>
    let st₁ := { st with flow := some (flow.shrink_window val) }
    if st₁.unadvertised_send_window < dec then
      { st₁ with unadvertised_send_window := 0 }
    else
      { st₁ with unadvertised_send_window := st₁.unadvertised_send_window - dec }
  | none => st

/-- The `for_each` body of the SETTINGS shrink path, as written in the
source: for a stream with an active handle it performs the mutations
of `shrinkPrePanic` and then hits `unimplemented!()` — a panic,
rendered as `none`, which discards the mutated record.  Streams
without a handle are left untouched. -/
def shrinkBody (val dec : Int) (st : StreamRec) : Option StreamRec :=
  match st.flow with
  | some _ =>
    let _pre := shrinkPrePanic val dec st
    none
  | none => some st

/-- The `for_each` body of the SETTINGS growth path: any stream with an
active handle hits `unimplemented!()` immediately. -/
def growBody (st : StreamRec) : Option StreamRec :=
  match st.flow with
  | some _ => none
  | none => some st

/-- Modelled from the spec: `Store::for_each` visits every live stream
(the arena's domain, given here as the handle list `dom`) in order,
writing back each visited record; a panic in the body (`none`) aborts
the traversal. -/
def forEachOpt (f : StreamRec → Option StreamRec) : List Nat → Store → Option Store
  | [], store => some store
  | k :: ks, store =>
    match f (store k) with
    | none => none
    | some st => forEachOpt f ks (updateStore store k st)

/-- `Send::apply_remote_settings`: store a new concurrent-stream cap if
present; on an initial-window-size change record the new value and
walk every live stream with the shrink (`val < old`) or growth
(`val > old`) body.  Both bodies panic on any stream with an active
handle (`unimplemented!()` stubs in the source), rendered as `none`. -/
def Send.apply_remote_settings (settings : SettingsFrame) (dom : List Nat)
    (s : Send) (store : Store) : Option (Send × Store) :=
  let s₁ :=
    match settings.max_concurrent_streams with
    | some v => { s with max_streams := some v }
    | none => s
  match settings.initial_window_size with
  | none => some (s₁, store)
  | some val =>
    let old_val := s₁.init_window_sz
    let s₂ := { s₁ with init_window_sz := val }
    if val < old_val then
      match forEachOpt (shrinkBody val (old_val - val)) dom store with
      | none => none
      | some store₁ => some (s₂, store₁)
    else if old_val < val then
      match forEachOpt growBody dom store with
      | none => none
      | some store₁ => some (s₂, store₁)
    else
      some (s₂, store)

/-- `Send::ensure_not_idle`: protocol error for any id at or above the
next locally assigned stream id. -/
def Send.ensure_not_idle (s : Send) (id : Nat) : Except UserError Unit :=
  if s.next_stream_id ≤ id then .error .ProtocolError else .ok ()

/-- `Send::dec_num_streams`: the `usize` decrement underflows (panics
in checked builds, rendered as `none`) when `num_streams` is zero;
otherwise decrement and, if the new count is below the cap
(`usize::MAX` when unset), take and notify the parked `blocked_open`
task.  The returned flag records whether a task was notified. -/
def Send.dec_num_streams (s : Send) : Option (Send × Bool) :=
  if s.num_streams = 0 then
    none
  else
    let n := s.num_streams - 1
    if n < (s.max_streams.getD USIZE_MAX) then
      if s.blocked_open then
        some ({ s with num_streams := n, blocked_open := false }, true)
      else
        some ({ s with num_streams := n }, false)
    else
      some ({ s with num_streams := n }, false)

/-- Iterate `open` (client role), collecting the ids issued by the
successful calls. -/
def Send.openN (is_server : Bool) : Nat → Send → List Nat × Send
  | 0, s => ([], s)
  | n + 1, s =>
    match Send.open is_server s with
    | (.ok id, s₁) =>
      let r := Send.openN is_server n s₁
      (id :: r.1, r.2)
    | (.error _, s₁) =>
      let r := Send.openN is_server n s₁
      (r.1, r.2)

/-- Iterate `open` (state only). -/
def Send.openIter (is_server : Bool) : Nat → Send → Send
  | 0, s => s
  | n + 1, s => Send.openIter is_server n (Send.open is_server s).2

/-- `Send::send_data` lifted to the store, acting on the stream with
handle `k` through its pointer. -/
def Send.send_data_at (sz : Nat) (end_stream : Bool) (k : Nat) (s : Send)
    (store : Store) : Option (Except UserError Unit × Send × Store) :=
  match Send.send_data sz end_stream s (store k) with
  | none => none
  | some (r, s₁, st₁) => some (r, s₁, updateStore store k st₁)

/-- `Send::recv_stream_window_update` lifted to the store, acting on
the stream with handle `k` through its pointer. -/
def Send.recv_stream_window_update_at (inc : Int) (k : Nat) (s : Send)
    (store : Store) : Send × Store :=
  let r := Send.recv_stream_window_update inc k s (store k)
  (r.1, updateStore store k r.2)

/-- The queue/flag invariant: a stream is a member of
`pending_capacity` exactly when its `is_pending_send_capacity` flag is
set, and no stream appears in the queue more than once. -/
def QueueInv (store : Store) (q : List Nat) : Prop :=
  q.Nodup ∧ ∀ k, k ∈ q ↔ (store k).is_pending_send_capacity = true

/-! ### Helper lemmas about `open` -/

theorem open_client_eq (s : Send) :
    Send.open false s =
      (if _h : ∃ m, s.max_streams = some m ∧ m ≤ s.num_streams then
        (.error .Rejected, s)
      else
        (.ok s.next_stream_id,
          { s with
              num_streams := s.num_streams + 1
              next_stream_id := s.next_stream_id + 2 })) := by
  simp only [Send.open, Send.ensure_can_open, if_neg Bool.false_ne_true]
  cases hm : s.max_streams with
  | none => simp [hm]
  | some m =>
    by_cases h : m ≤ s.num_streams
    · simp [hm, h]
    · simp [hm, h]

theorem open_preserves_max (b : Bool) (s : Send) :
    (Send.open b s).2.max_streams = s.max_streams := by
  cases b with
  | false =>
    rw [open_client_eq]
    split <;> rfl
  | true => rfl

theorem open_num_streams_le (m : Nat) (s : Send)
    (hm : s.max_streams = some m) (h : s.num_streams ≤ m) :
    (Send.open false s).2.num_streams ≤ m := by
  rw [open_client_eq]
  split
  · exact h
  · next hno =>
    simp only []
    rcases Nat.lt_or_ge s.num_streams m with hlt | hge
    · exact hlt
    · exact absurd ⟨m, hm, hge⟩ hno

theorem openIter_bounded (m : Nat) (n : Nat) :
    ∀ s : Send, s.max_streams = some m → s.num_streams ≤ m →
      (Send.openIter false n s).num_streams ≤ m := by
  induction n with
  | zero => intro s _ h; exact h
  | succ n ih =>
    intro s hm h
    exact ih _ (by rw [open_preserves_max, hm]) (open_num_streams_le m s hm h)

/-! ### C4: admission control never exceeds the cap -/

/-- C4: under client role with `max_streams = some m`, every sequence
of `open()` calls keeps `num_streams ≤ m`; and any `open()` issued
while `num_streams` has reached the cap returns the `Rejected` error
with the state (in particular `next_stream_id` and `num_streams`)
unchanged. -/
theorem open_respects_max_streams (m : Nat) (cfg : Config)
    (hcfg : cfg.max_local_initiated = some m) (n : Nat) :
    (Send.openIter false n (Send.new false cfg)).num_streams ≤ m ∧
    (∀ s : Send, s.max_streams = some m → m ≤ s.num_streams →
      Send.open false s = (.error .Rejected, s)) := by
  constructor
  · exact openIter_bounded m n (Send.new false cfg) (by simp [Send.new, hcfg])
      (Nat.zero_le m)
  · intro s hm hle
    rw [open_client_eq, dif_pos ⟨m, hm, hle⟩]

/-- C4 witness at `m = 1`: two opens from a fresh client stay within
the cap, and a state at the cap is rejected unchanged. -/
theorem open_respects_max_streams_witness :
    (Send.openIter false 2 (Send.new false ⟨some 1, 100⟩)).num_streams ≤ 1 ∧
    Send.open false ⟨some 1, 1, 3, 100, [], false, ⟨0, 0⟩⟩ =
      (.error .Rejected, ⟨some 1, 1, 3, 100, [], false, ⟨0, 0⟩⟩) := by
  have h := open_respects_max_streams 1 ⟨some 1, 100⟩ rfl 2
  exact ⟨h.1, h.2 ⟨some 1, 1, 3, 100, [], false, ⟨0, 0⟩⟩ rfl (by decide)⟩

/-! ### C6: stream-id sequence -/

theorem openN_ids (n : Nat) :
    ∀ s : Send, s.max_streams = none →
      (Send.openN false n s).1 =
        (List.range n).map (fun k => s.next_stream_id + 2 * k) := by
  induction n with
  | zero => intro s _; rfl
  | succ n ih =>
    intro s hm
    have hOpen : Send.open false s =
        (.ok s.next_stream_id,
          { s with
              num_streams := s.num_streams + 1
              next_stream_id := s.next_stream_id + 2 }) := by
      rw [open_client_eq]
      rw [dif_neg]
      rintro ⟨m, hsome, -⟩
      rw [hm] at hsome
      exact Option.noConfusion hsome
    simp only [Send.openN, hOpen]
    rw [ih { s with
        num_streams := s.num_streams + 1
        next_stream_id := s.next_stream_id + 2 } hm]
    simp only [List.range_succ_eq_map, List.map_cons, List.map_map]
    refine congrArg₂ _ (by omega) ?_
    refine List.map_congr_left ?_
    intro a _
    simp only [Function.comp]
    omega

/-- C6: ids issued by successive successful `open()` calls form the
arithmetic sequence with step 2 starting at 1 for a client; for a
server the initial id is 2 but `open()` always fails (servers cannot
locally initiate streams), and every successful `open()` returns the
current `next_stream_id` and advances it by exactly 2. -/
theorem open_stream_id_sequence (cfg : Config)
    (hcfg : cfg.max_local_initiated = none) (n : Nat) :
    (Send.openN false n (Send.new false cfg)).1 =
      (List.range n).map (fun k => 1 + 2 * k) ∧
    (Send.new true cfg).next_stream_id = 2 ∧
    (∀ s : Send, (Send.open true s).1 = .error .UnexpectedFrameType) ∧
    (∀ (s s₁ : Send) (id : Nat), Send.open false s = (.ok id, s₁) →
      id = s.next_stream_id ∧ s₁.next_stream_id = id + 2) := by
  refine ⟨?_, rfl, fun s => rfl, ?_⟩
  · rw [openN_ids n (Send.new false cfg) (by simp [Send.new, hcfg])]
    rfl
  · intro s s₁ id h
    rw [open_client_eq] at h
    split at h
    · exact absurd (congrArg Prod.fst h) (by simp)
    · obtain ⟨h1, h2⟩ := Prod.mk.injEq .. ▸ h
      cases h1
      exact ⟨rfl, by rw [← h2]⟩

/-- C6 witness: three opens from a fresh client issue ids 1, 3, 5; a
fresh server starts at id 2 and its `open` fails. -/
theorem open_stream_id_sequence_witness :
    (Send.openN false 3 (Send.new false ⟨none, 100⟩)).1 = [1, 3, 5] ∧
    (Send.new true ⟨none, 100⟩).next_stream_id = 2 ∧
    (Send.open true (Send.new true ⟨none, 100⟩)).1 = .error .UnexpectedFrameType := by
  have h := open_stream_id_sequence ⟨none, 100⟩ rfl 3
  exact ⟨by rw [h.1]; rfl, h.2.1, h.2.2.1 _⟩

/-! ### C7: ensure_not_idle -/

/-- C7: `ensure_not_idle(id)` returns a protocol error for every
`id ≥ next_stream_id`, and succeeds for every smaller, non-zero id. -/
theorem ensure_not_idle_spec (s : Send) (id : Nat) :
    (s.next_stream_id ≤ id →
      Send.ensure_not_idle s id = .error .ProtocolError) ∧
    (id < s.next_stream_id → id ≠ 0 →
      Send.ensure_not_idle s id = .ok ()) := by
  constructor
  · intro h
    simp [Send.ensure_not_idle, h]
  · intro h _
    simp [Send.ensure_not_idle, Nat.not_le.mpr h]

/-- C7 witness at `next_stream_id = 5`: id 7 is rejected, id 3 is
accepted. -/
theorem ensure_not_idle_spec_witness :
    Send.ensure_not_idle ⟨none, 0, 5, 100, [], false, ⟨0, 0⟩⟩ 7 =
      .error .ProtocolError ∧
    Send.ensure_not_idle ⟨none, 0, 5, 100, [], false, ⟨0, 0⟩⟩ 3 = .ok () := by
  exact ⟨(ensure_not_idle_spec _ 7).1 (by decide),
    (ensure_not_idle_spec _ 3).2 (by decide) (by decide)⟩

/-! ### C10: dec_num_streams -/

/-- C10: `dec_num_streams` has the unstated precondition
`num_streams > 0` — at zero the unsigned decrement underflows (a panic
in checked builds, `none` here).  Under the precondition it decrements
`num_streams` by exactly one and notifies the parked `blocked_open`
task exactly when a task is parked and the new count is below the cap
(or the cap is unset).  The bound `num_streams ≤ USIZE_MAX` is the
`usize` range of the field. -/
theorem dec_num_streams_spec (s : Send) (hle : s.num_streams ≤ USIZE_MAX) :
    (s.num_streams = 0 → Send.dec_num_streams s = none) ∧
    (0 < s.num_streams →
      ∃ (s₁ : Send) (woke : Bool),
        Send.dec_num_streams s = some (s₁, woke) ∧
        s₁.num_streams = s.num_streams - 1 ∧
        s₁.next_stream_id = s.next_stream_id ∧
        s₁.max_streams = s.max_streams ∧
        (woke = true ↔ (s.blocked_open = true ∧
          ∀ m, s.max_streams = some m → s.num_streams - 1 < m))) := by
  constructor
  · intro h
    simp [Send.dec_num_streams, h]
  · intro hpos
    have hne : ¬ s.num_streams = 0 := Nat.pos_iff_ne_zero.mp hpos
    simp only [Send.dec_num_streams, if_neg hne]
    by_cases hcap : s.num_streams - 1 < s.max_streams.getD USIZE_MAX
    · rw [if_pos hcap]
      cases hb : s.blocked_open with
      | true =>
        refine ⟨_, _, rfl, rfl, rfl, rfl, iff_of_true rfl ⟨rfl, ?_⟩⟩
        intro m hm
        rw [hm] at hcap
        exact hcap
      | false =>
        refine ⟨_, _, rfl, rfl, rfl, rfl, ?_⟩
        simp
    · rw [if_neg hcap]
      refine ⟨_, _, rfl, rfl, rfl, rfl, iff_of_false Bool.false_ne_true ?_⟩
      rintro ⟨-, hall⟩
      cases hm : s.max_streams with
      | none =>
        rw [hm] at hcap
        simp only [Option.getD] at hcap
        have : s.num_streams - 1 < USIZE_MAX := by
          have h1 : 0 < USIZE_MAX := by decide
          omega
        exact hcap this
      | some m =>
        rw [hm] at hcap
        exact hcap (hall m hm)

/-- C10 witness: at `num_streams = 0` the call panics; at
`num_streams = 2` with cap 5 and a parked task, it returns count 1 and
wakes the task. -/
theorem dec_num_streams_spec_witness :
    Send.dec_num_streams ⟨some 5, 0, 1, 100, [], true, ⟨0, 0⟩⟩ = none ∧
    (Send.dec_num_streams ⟨some 5, 2, 1, 100, [], true, ⟨0, 0⟩⟩).map
      (fun r => (r.1.num_streams, r.2)) = some (1, true) := by
  constructor
  · exact (dec_num_streams_spec ⟨some 5, 0, 1, 100, [], true, ⟨0, 0⟩⟩
      (by decide)).1 rfl
  · obtain ⟨s₁, woke, heq, h1, -, -, h4⟩ :=
      (dec_num_streams_spec ⟨some 5, 2, 1, 100, [], true, ⟨0, 0⟩⟩
        (by decide)).2 (by decide)
    rw [heq, Option.map_some']
    rw [h1, h4.mpr ⟨rfl, by rintro m hm; cases hm; decide⟩]
    rfl

/-! ### C8: send_data without a flow-control handle -/

/-- C8: `send_data` on a stream with no active send-flow-control
handle fails with `InactiveStreamId` when the stream is closed and
with `UnexpectedFrameType` otherwise; in both cases the `Send` state
(in particular the prioritizer's frame queue) and the stream are
returned unchanged.  The size bound keeps the call off the
`unimplemented!()` overflow path. -/
theorem send_data_no_flow_spec (sz : Nat) (es : Bool) (s : Send) (st : StreamRec)
    (hsz : sz ≤ MAX_WINDOW_SIZE.toNat) (hflow : st.flow = none) :
    (st.closed = true →
      Send.send_data sz es s st = some (.error .InactiveStreamId, s, st)) ∧
    (st.closed = false →
      Send.send_data sz es s st = some (.error .UnexpectedFrameType, s, st)) := by
  constructor
  · intro hc
    simp [Send.send_data, hflow, hc, Nat.not_lt.mpr hsz]
  · intro hc
    simp [Send.send_data, hflow, hc, Nat.not_lt.mpr hsz]

/-- C8 witness: a closed stream yields the inactive-stream error, an
open-but-handleless stream yields the unexpected-frame error, with
states unchanged. -/
theorem send_data_no_flow_spec_witness :
    Send.send_data 10 false ⟨none, 0, 1, 100, [], false, ⟨7, 0⟩⟩
        ⟨none, true, 0, false, false, false⟩ =
      some (.error .InactiveStreamId, ⟨none, 0, 1, 100, [], false, ⟨7, 0⟩⟩,
        ⟨none, true, 0, false, false, false⟩) ∧
    Send.send_data 10 false ⟨none, 0, 1, 100, [], false, ⟨7, 0⟩⟩
        ⟨none, false, 0, false, false, false⟩ =
      some (.error .UnexpectedFrameType, ⟨none, 0, 1, 100, [], false, ⟨7, 0⟩⟩,
        ⟨none, false, 0, false, false, false⟩) := by
  exact ⟨(send_data_no_flow_spec 10 false _ _ (by decide) rfl).1 rfl,
    (send_data_no_flow_spec 10 false _ _ (by decide) rfl).2 rfl⟩

/-! ### C5: window_size -/

/-- C5: `window_size` returns 0 when the stream has no active
send-flow-control handle, otherwise (after folding queued
window-update expansions into the effective window) it returns
`max(0, effective_window - unadvertised_send_window)` (the `Int.toNat`
of the difference); and a second call with no intervening update
returns the same value. -/
theorem window_size_spec (st : StreamRec) :
    (st.flow = none → (Send.window_size st).2 = 0) ∧
    (∀ fc, st.flow = some fc →
      (Send.window_size st).2 =
        (fc.effective_window_size - st.unadvertised_send_window).toNat) ∧
    (Send.window_size (Send.window_size st).1).2 = (Send.window_size st).2 := by
  refine ⟨?_, ?_, ?_⟩
  · intro h
    simp [Send.window_size, h]
  · intro fc h
    simp only [Send.window_size, h]
    by_cases hlt :
        (fc.apply_window_update).effective_window_size < st.unadvertised_send_window
    · rw [if_pos hlt]
      have heq : fc.apply_window_update.effective_window_size
          = fc.effective_window_size := by
        simp [FlowControl.apply_window_update, FlowControl.effective_window_size]
      rw [heq] at hlt
      omega
    · rw [if_neg hlt]
      have heq : fc.apply_window_update.effective_window_size
          = fc.effective_window_size := by
        simp [FlowControl.apply_window_update, FlowControl.effective_window_size]
      rw [heq]
  · cases hf : st.flow with
    | none =>
      simp [Send.window_size, hf]
    | some fc =>
      simp only [Send.window_size, hf]
      by_cases hlt :
          (fc.apply_window_update).effective_window_size < st.unadvertised_send_window
      · rw [if_pos hlt]
        simp only [Send.window_size]
        rw [if_pos (by simpa [FlowControl.apply_window_update,
          FlowControl.effective_window_size] using hlt)]
      · rw [if_neg hlt]
        simp only [Send.window_size]
        rw [if_neg (by simpa [FlowControl.apply_window_update,
          FlowControl.effective_window_size] using hlt)]
        simp [FlowControl.apply_window_update, FlowControl.effective_window_size]

/-- C5 witness: a stream with effective window 9 (3 applied + 6
queued) and unadvertised amount 4 reports 5 sendable bytes, twice; a
handleless stream reports 0. -/
theorem window_size_spec_witness :
    (Send.window_size ⟨none, false, 0, false, false, false⟩).2 = 0 ∧
    (Send.window_size ⟨some ⟨3, 6⟩, false, 4, false, false, false⟩).2 = 5 ∧
    (Send.window_size
      (Send.window_size ⟨some ⟨3, 6⟩, false, 4, false, false, false⟩).1).2 = 5 := by
  have h := window_size_spec ⟨some ⟨3, 6⟩, false, 4, false, false, false⟩
  refine ⟨(window_size_spec ⟨none, false, 0, false, false, false⟩).1 rfl, ?_, ?_⟩
  · rw [h.2.1 ⟨3, 6⟩ rfl]
    decide
  · rw [h.2.2, h.2.1 ⟨3, 6⟩ rfl]
    decide

/-! ### C1: SETTINGS-driven shrink -/

/-- C1 (code bug): lowering the initial window size from 100 to 60
(delta 40) over a store holding one open stream with effective window
80 and unadvertised amount 10 does NOT leave the stream at effective
window `80 - 40 = 40`: the shrink body first shrinks by the new value
60 (reaching effective window 20) and then hits the
`unimplemented!()` stub, so the whole call panics (`none`). -/
theorem apply_remote_settings_shrink_panics :
    Send.apply_remote_settings ⟨none, some 60⟩ [0]
        ⟨none, 1, 3, 100, [], false, ⟨50, 0⟩⟩
        (fun _ => ⟨some ⟨80, 0⟩, false, 10, false, false, false⟩) = none ∧
    (shrinkPrePanic 60 40
        ⟨some ⟨80, 0⟩, false, 10, false, false, false⟩).flow.map
      FlowControl.effective_window_size = some 20 ∧
    (shrinkPrePanic 60 40
        ⟨some ⟨80, 0⟩, false, 10, false, false, false⟩).unadvertised_send_window
      = 0 := by
  refine ⟨?_, by decide, by decide⟩
  have h60 : ((60 : Int) < 100) = True := by simp
  simp only [Send.apply_remote_settings, h60, if_true, forEachOpt, shrinkBody]

/-! ### C3: per-stream WINDOW_UPDATE -/

theorem expand_effective (fc : FlowControl) (inc : Int) :
    (fc.expand_window inc).effective_window_size =
      fc.effective_window_size + inc := by
  simp only [FlowControl.expand_window, FlowControl.effective_window_size]
  ring

/-- Closed form of `recv_stream_window_update` on a stream whose
handle is present. -/
theorem recv_stream_eq (inc : Int) (k : Nat) (s : Send) (st : StreamRec)
    (fc : FlowControl) (hflow : st.flow = some fc) :
    Send.recv_stream_window_update inc k s st =
      (let c := s.prioritize.available
       let e := fc.effective_window_size + inc
       let u := if c < e then e - c else st.unadvertised_send_window
       let base : StreamRec :=
         { st with
             flow := some (fc.expand_window inc)
             unadvertised_send_window := u
             is_pending_send_capacity :=
               st.is_pending_send_capacity || decide (c < e) }
       ((if decide (c < e) && !st.is_pending_send_capacity then
           { s with pending_capacity := s.pending_capacity ++ [k] }
         else s),
        (if u = inc + st.unadvertised_send_window then base
         else base.notify_send))) := by
  simp only [Send.recv_stream_window_update, hflow]
  by_cases h1 : s.prioritize.available < fc.effective_window_size + inc
  · have h1e : s.prioritize.available <
        (fc.expand_window inc).effective_window_size := by
      rw [expand_effective]
      exact h1
    by_cases h2 : st.is_pending_send_capacity = true
    · simp [h1, h1e, h2, expand_effective]
      split <;> rfl
    · have h2' : st.is_pending_send_capacity = false := by
        cases h : st.is_pending_send_capacity
        · rfl
        · exact absurd h h2
      simp [h1, h1e, h2', expand_effective]
      split <;> rfl
  · have h1e : ¬ s.prioritize.available <
        (fc.expand_window inc).effective_window_size := by
      rw [expand_effective]
      exact h1
    simp [h1, h1e, expand_effective]
    split <;> rfl

/-- C3: `recv_stream_window_update` on a stream with an active handle
expands the effective window by exactly the increment; when the
connection window is smaller than the new effective window the excess
becomes `unadvertised_send_window` and the stream is enqueued exactly
when it is not already a member of `pending_capacity`; the waiting
task is notified iff some part of the increment was advertised rather
than absorbed into `unadvertised_send_window`.  Hypotheses: the
increment is non-negative (31-bit WINDOW_UPDATE value), the stream's
pre-state is reconciled (its unadvertised amount covers the part of
its window the connection cannot honor), queue membership agrees with
the `is_pending_send_capacity` flag, and a task is parked un-notified. -/
theorem recv_stream_window_update_spec (inc : Int) (k : Nat) (s : Send)
    (st : StreamRec) (fc : FlowControl)
    (hflow : st.flow = some fc)
    (hinc : 0 ≤ inc)
    (hcover : fc.effective_window_size ≤
      s.prioritize.available + st.unadvertised_send_window)
    (hq : st.is_pending_send_capacity = true ↔ k ∈ s.pending_capacity)
    (htask : st.send_task = true)
    (hnot : st.notified = false) :
    ((Send.recv_stream_window_update inc k s st).2.flow.map
        FlowControl.effective_window_size =
      some (fc.effective_window_size + inc)) ∧
    (s.prioritize.available < fc.effective_window_size + inc →
      ((Send.recv_stream_window_update inc k s st).2.unadvertised_send_window =
        fc.effective_window_size + inc - s.prioritize.available) ∧
      (k ∉ s.pending_capacity →
        (Send.recv_stream_window_update inc k s st).1.pending_capacity =
          s.pending_capacity ++ [k] ∧
        (Send.recv_stream_window_update inc k s st).2.is_pending_send_capacity
          = true) ∧
      (k ∈ s.pending_capacity →
        (Send.recv_stream_window_update inc k s st).1.pending_capacity =
          s.pending_capacity)) ∧
    ((Send.recv_stream_window_update inc k s st).2.notified = true ↔
      (Send.recv_stream_window_update inc k s st).2.unadvertised_send_window -
        st.unadvertised_send_window < inc) := by
  rw [recv_stream_eq inc k s st fc hflow]
  by_cases hc : s.prioritize.available < fc.effective_window_size + inc
  · simp only [hc, if_true, decide_True, Bool.true_and]
    by_cases hp : st.is_pending_send_capacity = true
    · simp only [hp, Bool.not_true, Bool.and_false]
      by_cases habs : fc.effective_window_size + inc - s.prioritize.available =
          inc + st.unadvertised_send_window
      · simp only [habs, if_true, if_pos rfl]
        refine ⟨by simp [expand_effective], fun _ =>
          ⟨by simp, fun hk => absurd (hq.mp hp) hk, fun _ => rfl⟩, ?_⟩
        simp only [hnot]
        simp only [Bool.false_eq_true, false_iff]
        omega
      · rw [if_neg habs]
        refine ⟨by simp [StreamRec.notify_send, expand_effective], fun _ =>
          ⟨by simp [StreamRec.notify_send], fun hk => absurd (hq.mp hp) hk,
            fun _ => rfl⟩, ?_⟩
        simp only [StreamRec.notify_send, htask, hnot]
        simp only [Bool.false_or, true_iff]
        omega
    · have hp' : st.is_pending_send_capacity = false := by
        cases h : st.is_pending_send_capacity
        · rfl
        · exact absurd h hp
      simp only [hp', Bool.not_false, Bool.and_true, if_true]
      by_cases habs : fc.effective_window_size + inc - s.prioritize.available =
          inc + st.unadvertised_send_window
      · rw [if_pos habs]
        refine ⟨by simp [expand_effective], fun _ =>
          ⟨by simp, fun _ => ⟨by simp, by simp⟩,
            fun hk => absurd (hq.mpr hk) (by rw [hp']; exact Bool.false_ne_true)⟩,
          ?_⟩
        simp only [hnot]
        simp only [Bool.false_eq_true, false_iff]
        omega
      · rw [if_neg habs]
        refine ⟨by simp [StreamRec.notify_send, expand_effective], fun _ =>
          ⟨by simp [StreamRec.notify_send], fun _ =>
            ⟨by simp [StreamRec.notify_send], by simp [StreamRec.notify_send]⟩,
            fun hk => absurd (hq.mpr hk) (by rw [hp']; exact Bool.false_ne_true)⟩,
          ?_⟩
        simp only [StreamRec.notify_send, htask, hnot]
        simp only [Bool.false_or, true_iff]
        omega
  · simp only [hc, if_false, decide_False, Bool.false_and, Bool.or_false]
    by_cases h0 : st.unadvertised_send_window = inc + st.unadvertised_send_window
    · rw [if_pos h0]
      refine ⟨by simp [expand_effective], fun hlt => hlt.elim, ?_⟩
      simp only [hnot]
      simp only [Bool.false_eq_true, false_iff]
      omega
    · rw [if_neg h0]
      refine ⟨by simp [StreamRec.notify_send, expand_effective],
        fun hlt => hlt.elim, ?_⟩
      simp only [StreamRec.notify_send, htask, hnot]
      simp only [Bool.false_or, true_iff]
      omega

/-- C3 witness: connection window 3, stream window 10 with
unadvertised amount 7, increment 5.  The new effective window 15
exceeds the connection window, so the unadvertised amount becomes 12,
the stream is enqueued, and (the whole increment being absorbed) the
task is not notified. -/
theorem recv_stream_window_update_spec_witness :
    (Send.recv_stream_window_update 5 0 ⟨none, 0, 1, 100, [], false, ⟨3, 0⟩⟩
      ⟨some ⟨10, 0⟩, false, 7, false, true, false⟩).2.unadvertised_send_window
        = 12 ∧
    (Send.recv_stream_window_update 5 0 ⟨none, 0, 1, 100, [], false, ⟨3, 0⟩⟩
      ⟨some ⟨10, 0⟩, false, 7, false, true, false⟩).1.pending_capacity = [0] ∧
    (Send.recv_stream_window_update 5 0 ⟨none, 0, 1, 100, [], false, ⟨3, 0⟩⟩
      ⟨some ⟨10, 0⟩, false, 7, false, true, false⟩).2.notified = false := by
  have h := recv_stream_window_update_spec 5 0
    ⟨none, 0, 1, 100, [], false, ⟨3, 0⟩⟩
    ⟨some ⟨10, 0⟩, false, 7, false, true, false⟩ ⟨10, 0⟩
    rfl (by decide) (by decide) (by simp) rfl rfl
  refine ⟨?_, ?_, ?_⟩
  · rw [(h.2.1 (by decide)).1]
    decide
  · rw [((h.2.1 (by decide)).2.1 (by simp)).1]
    rfl
  · cases hn : (Send.recv_stream_window_update 5 0
        ⟨none, 0, 1, 100, [], false, ⟨3, 0⟩⟩
        ⟨some ⟨10, 0⟩, false, 7, false, true, false⟩).2.notified
    · rfl
    · exact absurd (h.2.2.mp hn) (by decide)

/-! ### C2: connection-level WINDOW_UPDATE walks the pending queue -/

theorem updateStore_self (store : Store) (k : Nat) (st : StreamRec) :
    updateStore store k st k = st := by
  simp [updateStore]

theorem updateStore_ne (store : Store) (k : Nat) (st : StreamRec) (j : Nat)
    (h : j ≠ k) : updateStore store k st j = store j := by
  simp [updateStore, h]

theorem retainCapacity_store_of_not_mem (c : Int) :
    ∀ (q : List Nat) (store : Store) (j : Nat), j ∉ q →
      (retainCapacity c store q).1 j = store j := by
  intro q
  induction q with
  | nil => intro store j _; rfl
  | cons k ks ih =>
    intro store j hj
    have hjk : j ≠ k := fun h => hj (h ▸ List.mem_cons_self k ks)
    have hjks : j ∉ ks := fun h => hj (List.mem_cons_of_mem k h)
    simp only [retainCapacity]
    rw [ih _ j hjks, updateStore_ne _ _ _ _ hjk]

theorem retainCapacity_store_of_mem (c : Int) :
    ∀ (q : List Nat) (store : Store), q.Nodup → ∀ j ∈ q,
      (retainCapacity c store q).1 j = (connRetainStep c (store j)).1 := by
  intro q
  induction q with
  | nil => intro store _ j hj; exact absurd hj (List.not_mem_nil j)
  | cons k ks ih =>
    intro store hnod j hj
    have hkks : k ∉ ks := (List.nodup_cons.mp hnod).1
    have hks : ks.Nodup := (List.nodup_cons.mp hnod).2
    rcases List.mem_cons.mp hj with rfl | hjks
    · simp only [retainCapacity]
      rw [retainCapacity_store_of_not_mem c ks _ j hkks, updateStore_self]
    · have hjk : j ≠ k := fun h => hkks (h ▸ hjks)
      simp only [retainCapacity]
      rw [ih _ hks j hjks, updateStore_ne _ _ _ _ hjk]

theorem retainCapacity_queue (c : Int) :
    ∀ (q : List Nat) (store : Store), q.Nodup →
      (retainCapacity c store q).2 =
        q.filter (fun j => (connRetainStep c (store j)).2) := by
  intro q
  induction q with
  | nil => intro store _; rfl
  | cons k ks ih =>
    intro store hnod
    have hkks : k ∉ ks := (List.nodup_cons.mp hnod).1
    have hks : ks.Nodup := (List.nodup_cons.mp hnod).2
    simp only [retainCapacity]
    rw [ih _ hks]
    have hcong : ks.filter
          (fun j => (connRetainStep c (updateStore store k
            (connRetainStep c (store k)).1 j)).2) =
        ks.filter (fun j => (connRetainStep c (store j)).2) := by
      apply List.filter_congr
      intro j hjks
      have hjk : j ≠ k := fun h => hkks (h ▸ hjks)
      rw [updateStore_ne _ _ _ _ hjk]
    rw [hcong, List.filter_cons]

theorem connRetainStep_remove (c : Int) (st : StreamRec)
    (h : st.unadvertised_send_window = 0 ∨ st.flow = none) :
    connRetainStep c st = ({ st with is_pending_send_capacity := false }, false) := by
  by_cases h0 : st.unadvertised_send_window = 0
  · simp [connRetainStep, h0]
  · rcases h with h | h
    · exact absurd h h0
    · simp [connRetainStep, h0, h]

theorem connRetainStep_full (c : Int) (st : StreamRec) (fc : FlowControl)
    (hf : st.flow = some fc) (hu : 0 < st.unadvertised_send_window)
    (hc : fc.effective_window_size ≤ c) :
    connRetainStep c st =
      (StreamRec.notify_send { st with unadvertised_send_window := 0 }, true) := by
  have h0 : ¬ st.unadvertised_send_window = 0 := by omega
  have h1 : ¬ c ≤ fc.effective_window_size - st.unadvertised_send_window := by
    omega
  simp [connRetainStep, h0, hf, h1, hc]

theorem connRetainStep_partial (c : Int) (st : StreamRec) (fc : FlowControl)
    (hf : st.flow = some fc) (hu : 0 < st.unadvertised_send_window)
    (h1 : fc.effective_window_size - st.unadvertised_send_window < c)
    (h2 : c < fc.effective_window_size) :
    connRetainStep c st =
      (StreamRec.notify_send
        { st with unadvertised_send_window := fc.effective_window_size - c },
       true) := by
  have h0 : ¬ st.unadvertised_send_window = 0 := by omega
  have h1' : ¬ c ≤ fc.effective_window_size - st.unadvertised_send_window := by
    omega
  have h2' : ¬ fc.effective_window_size ≤ c := by omega
  simp [connRetainStep, h0, hf, h1', h2']

theorem connRetainStep_untouched (c : Int) (st : StreamRec) (fc : FlowControl)
    (hf : st.flow = some fc) (hu : 0 < st.unadvertised_send_window)
    (h : c ≤ fc.effective_window_size - st.unadvertised_send_window) :
    connRetainStep c st = (st, true) := by
  have h0 : ¬ st.unadvertised_send_window = 0 := by omega
  simp [connRetainStep, h0, hf, h]

/-- C2: `recv_connection_window_update` expands the connection window
by the increment and traverses `pending_capacity` exactly once,
applying the retain step to each member and leaving non-members
untouched; the retained queue keeps exactly the members whose step
returns true.  The step itself: a member with zero unadvertised amount
or no flow handle is removed with its flag cleared; full coverage
(`effective ≤ connection`) zeroes the unadvertised amount, notifies
the waiting task and keeps the member; partial coverage sets the
unadvertised amount to `effective - connection`, notifies and keeps;
no new coverage (`connection ≤ effective - unadvertised`) keeps the
member unchanged with no notification. -/
theorem recv_connection_window_update_spec (inc : Int) (s : Send) (store : Store)
    (hnod : s.pending_capacity.Nodup) :
    (∀ k ∈ s.pending_capacity,
      (Send.recv_connection_window_update inc s store).2 k =
        (connRetainStep (s.prioritize.available + inc) (store k)).1) ∧
    (∀ k, k ∉ s.pending_capacity →
      (Send.recv_connection_window_update inc s store).2 k = store k) ∧
    ((Send.recv_connection_window_update inc s store).1.pending_capacity =
      s.pending_capacity.filter
        (fun k => (connRetainStep (s.prioritize.available + inc) (store k)).2)) ∧
    ((Send.recv_connection_window_update inc s store).1.prioritize.available =
      s.prioritize.available + inc) ∧
    (∀ st : StreamRec,
      (st.unadvertised_send_window = 0 ∨ st.flow = none →
        connRetainStep (s.prioritize.available + inc) st =
          ({ st with is_pending_send_capacity := false }, false)) ∧
      (∀ fc, st.flow = some fc → 0 < st.unadvertised_send_window →
        (fc.effective_window_size ≤ s.prioritize.available + inc →
          connRetainStep (s.prioritize.available + inc) st =
            (StreamRec.notify_send { st with unadvertised_send_window := 0 },
             true)) ∧
        (fc.effective_window_size - st.unadvertised_send_window <
            s.prioritize.available + inc →
          s.prioritize.available + inc < fc.effective_window_size →
          connRetainStep (s.prioritize.available + inc) st =
            (StreamRec.notify_send
              { st with unadvertised_send_window :=
                  fc.effective_window_size - (s.prioritize.available + inc) },
             true)) ∧
        (s.prioritize.available + inc ≤
            fc.effective_window_size - st.unadvertised_send_window →
          connRetainStep (s.prioritize.available + inc) st = (st, true)))) := by
  refine ⟨?_, ?_, ?_, rfl, ?_⟩
  · intro k hk
    exact retainCapacity_store_of_mem (s.prioritize.available + inc)
      s.pending_capacity store hnod k hk
  · intro k hk
    exact retainCapacity_store_of_not_mem (s.prioritize.available + inc)
      s.pending_capacity store k hk
  · exact retainCapacity_queue (s.prioritize.available + inc)
      s.pending_capacity store hnod
  · intro st
    refine ⟨connRetainStep_remove _ st, ?_⟩
    intro fc hf hu
    exact ⟨connRetainStep_full _ st fc hf hu,
      fun h1 h2 => connRetainStep_partial _ st fc hf hu h1 h2,
      connRetainStep_untouched _ st fc hf hu⟩

/-- C2 witness: connection window grows from 0 to 10 with queue
`[0, 1]`; member 0 has zero unadvertised amount and is dropped with
its flag cleared; member 1 (window 8, unadvertised 4) is fully
covered: its unadvertised amount becomes 0, its task is notified and
it stays queued. -/
theorem recv_connection_window_update_spec_witness :
    ((Send.recv_connection_window_update 10
        ⟨none, 0, 1, 100, [0, 1], false, ⟨0, 0⟩⟩
        (fun j => if j = 0 then ⟨some ⟨5, 0⟩, false, 0, true, true, false⟩
          else ⟨some ⟨8, 0⟩, false, 4, true, true, false⟩)).2 0 =
      ⟨some ⟨5, 0⟩, false, 0, false, true, false⟩) ∧
    ((Send.recv_connection_window_update 10
        ⟨none, 0, 1, 100, [0, 1], false, ⟨0, 0⟩⟩
        (fun j => if j = 0 then ⟨some ⟨5, 0⟩, false, 0, true, true, false⟩
          else ⟨some ⟨8, 0⟩, false, 4, true, true, false⟩)).2 1 =
      ⟨some ⟨8, 0⟩, false, 0, true, false, true⟩) ∧
    ((Send.recv_connection_window_update 10
        ⟨none, 0, 1, 100, [0, 1], false, ⟨0, 0⟩⟩
        (fun j => if j = 0 then ⟨some ⟨5, 0⟩, false, 0, true, true, false⟩
          else ⟨some ⟨8, 0⟩, false, 4, true, true, false⟩)).1.pending_capacity =
      [1]) := by
  have h := recv_connection_window_update_spec 10
    ⟨none, 0, 1, 100, [0, 1], false, ⟨0, 0⟩⟩
    (fun j => if j = 0 then ⟨some ⟨5, 0⟩, false, 0, true, true, false⟩
      else ⟨some ⟨8, 0⟩, false, 4, true, true, false⟩)
    (by decide)
  refine ⟨?_, ?_, ?_⟩
  · rw [h.1 0 (by decide)]
    decide
  · rw [h.1 1 (by decide)]
    decide
  · rw [h.2.2.1]
    decide

/-! ### C9: the queue/flag invariant is preserved by every operation -/

theorem open_pending (b : Bool) (s : Send) :
    (Send.open b s).2.pending_capacity = s.pending_capacity := by
  cases b with
  | false =>
    rw [open_client_eq]
    split <;> rfl
  | true => rfl

theorem send_data_effects (sz : Nat) (es : Bool) (s : Send) (st : StreamRec)
    (r : Except UserError Unit) (s₁ : Send) (st₁ : StreamRec)
    (h : Send.send_data sz es s st = some (r, s₁, st₁)) :
    st₁.is_pending_send_capacity = st.is_pending_send_capacity ∧
    s₁.pending_capacity = s.pending_capacity := by
  by_cases hsz : MAX_WINDOW_SIZE.toNat < sz
  · rw [Send.send_data, if_pos hsz] at h
    exact absurd h (by simp)
  · cases hf : st.flow with
    | none =>
      cases hc : st.closed <;>
        simp only [Send.send_data, hsz, if_false, hf, hc, Option.some.injEq,
          Prod.mk.injEq] at h <;>
        obtain ⟨-, rfl, rfl⟩ := h <;>
        exact ⟨rfl, rfl⟩
    | some flow =>
      by_cases he : flow.ensure_window
          ((sz : Int) + st.unadvertised_send_window) = true
      · cases hcl : flow.claim_window (sz : Int) with
        | none =>
          simp [Send.send_data, hsz, hf, he, hcl] at h
        | some flow₁ =>
          simp only [Send.send_data, hsz, if_false, hf, he, if_true, hcl,
            Option.some.injEq, Prod.mk.injEq] at h
          obtain ⟨-, rfl, rfl⟩ := h
          constructor
          · cases es <;> simp [StreamRec.send_close]
          · rfl
      · simp only [Send.send_data, hsz, if_false, hf, he, Option.some.injEq,
          Prod.mk.injEq] at h
        obtain ⟨-, rfl, rfl⟩ := h
        exact ⟨rfl, rfl⟩

theorem queueInv_update (store : Store) (q : List Nat) (k : Nat)
    (st₁ : StreamRec) (hinv : QueueInv store q)
    (hflag : st₁.is_pending_send_capacity = (store k).is_pending_send_capacity) :
    QueueInv (updateStore store k st₁) q := by
  refine ⟨hinv.1, fun j => ?_⟩
  by_cases hjk : j = k
  · subst hjk
    rw [updateStore_self, hflag]
    exact hinv.2 j
  · rw [updateStore_ne _ _ _ _ hjk]
    exact hinv.2 j

theorem queueInv_congr (store store₁ : Store) (q : List Nat)
    (h : ∀ j, store₁ j = store j) (hinv : QueueInv store q) :
    QueueInv store₁ q := by
  refine ⟨hinv.1, fun j => ?_⟩
  rw [h j]
  exact hinv.2 j

theorem recv_stream_pending_cases (inc : Int) (k : Nat) (s : Send)
    (st : StreamRec) :
    ((Send.recv_stream_window_update inc k s st).1.pending_capacity =
        s.pending_capacity ∧
      (Send.recv_stream_window_update inc k s st).2.is_pending_send_capacity =
        st.is_pending_send_capacity) ∨
    (st.is_pending_send_capacity = false ∧
      (Send.recv_stream_window_update inc k s st).1.pending_capacity =
        s.pending_capacity ++ [k] ∧
      (Send.recv_stream_window_update inc k s st).2.is_pending_send_capacity =
        true) := by
  cases hf : st.flow with
  | none =>
    left
    simp [Send.recv_stream_window_update, hf]
  | some fc =>
    rw [recv_stream_eq inc k s st fc hf]
    by_cases hc : s.prioritize.available < fc.effective_window_size + inc
    · by_cases hp : st.is_pending_send_capacity = true
      · left
        refine ⟨?_, ?_⟩ <;>
        · simp only [hc, hp, if_true, decide_True, Bool.not_true,
            Bool.and_false, Bool.false_eq_true, if_false, Bool.or_true]
          all_goals split <;> simp [StreamRec.notify_send, hp]
      · have hp' : st.is_pending_send_capacity = false := by
          cases h : st.is_pending_send_capacity
          · rfl
          · exact absurd h hp
        right
        refine ⟨hp', ?_, ?_⟩ <;>
        · simp only [hc, hp', if_true, decide_True, Bool.not_false,
            Bool.and_true, Bool.false_or]
          all_goals split <;> simp [StreamRec.notify_send]
    · left
      refine ⟨?_, ?_⟩ <;>
      · simp only [hc, decide_False, Bool.false_and, Bool.false_eq_true,
          if_false, Bool.or_false]
        all_goals split <;> simp [StreamRec.notify_send]

theorem connRetainStep_flag (c : Int) (st : StreamRec) :
    ((connRetainStep c st).2 = false ∧
      (connRetainStep c st).1.is_pending_send_capacity = false) ∨
    ((connRetainStep c st).2 = true ∧
      (connRetainStep c st).1.is_pending_send_capacity =
        st.is_pending_send_capacity) := by
  by_cases h0 : st.unadvertised_send_window = 0
  · rw [connRetainStep_remove c st (Or.inl h0)]
    left
    exact ⟨rfl, rfl⟩
  · cases hf : st.flow with
    | none =>
      rw [connRetainStep_remove c st (Or.inr hf)]
      left
      exact ⟨rfl, rfl⟩
    | some fc =>
      right
      by_cases h1 : c ≤ fc.effective_window_size - st.unadvertised_send_window
      · simp [connRetainStep, h0, hf, h1]
      · constructor
        · simp [connRetainStep, h0, hf, h1]
        · by_cases h2 : fc.effective_window_size ≤ c <;>
            simp [connRetainStep, h0, hf, h1, h2, StreamRec.notify_send]

theorem queueInv_retain (c : Int) (store : Store) (q : List Nat)
    (hinv : QueueInv store q) :
    QueueInv (retainCapacity c store q).1 (retainCapacity c store q).2 := by
  obtain ⟨hnod, hmem⟩ := hinv
  constructor
  · rw [retainCapacity_queue c q store hnod]
    exact hnod.filter _
  · intro j
    rw [retainCapacity_queue c q store hnod, List.mem_filter]
    by_cases hj : j ∈ q
    · rw [retainCapacity_store_of_mem c q store hnod j hj]
      rcases connRetainStep_flag c (store j) with ⟨hkeep, hflag⟩ | ⟨hkeep, hflag⟩
      · constructor
        · rintro ⟨-, hk⟩
          rw [hkeep] at hk
          exact absurd hk (by simp)
        · intro hk
          rw [hflag] at hk
          exact absurd hk (by simp)
      · constructor
        · rintro ⟨-, -⟩
          rw [hflag]
          exact (hmem j).mp hj
        · intro _
          exact ⟨hj, hkeep⟩
    · rw [retainCapacity_store_of_not_mem c q store j hj]
      constructor
      · rintro ⟨hjq, -⟩
        exact absurd hjq hj
      · intro hk
        exact absurd ((hmem j).mpr hk) hj

theorem forEachOpt_id (f : StreamRec → Option StreamRec)
    (hf : ∀ st st₁, f st = some st₁ → st₁ = st) :
    ∀ (dom : List Nat) (store store₁ : Store),
      forEachOpt f dom store = some store₁ → ∀ j, store₁ j = store j := by
  intro dom
  induction dom with
  | nil =>
    intro store store₁ h j
    simp only [forEachOpt, Option.some.injEq] at h
    rw [← h]
  | cons k ks ih =>
    intro store store₁ h j
    simp only [forEachOpt] at h
    cases hk : f (store k) with
    | none =>
      rw [hk] at h
      exact absurd h (by simp)
    | some st =>
      rw [hk] at h
      have hstep := ih _ _ h j
      rw [hstep]
      rcases hf _ _ hk with rfl
      by_cases hjk : j = k
      · subst hjk
        rw [updateStore_self]
      · rw [updateStore_ne _ _ _ _ hjk]

theorem shrinkBody_id (val dec : Int) (st st₁ : StreamRec)
    (h : shrinkBody val dec st = some st₁) : st₁ = st := by
  cases hf : st.flow with
  | none =>
    rw [shrinkBody, hf] at h
    exact (Option.some.inj h).symm
  | some fc =>
    rw [shrinkBody, hf] at h
    exact absurd h (by simp)

theorem growBody_id (st st₁ : StreamRec) (h : growBody st = some st₁) :
    st₁ = st := by
  cases hf : st.flow with
  | none =>
    rw [growBody, hf] at h
    exact (Option.some.inj h).symm
  | some fc =>
    rw [growBody, hf] at h
    exact absurd h (by simp)

theorem apply_settings_effects_core (dom : List Nat) (s₀ : Send) (store : Store)
    (s₁ : Send) (store₁ : Store) (val : Int)
    (h : (if val < s₀.init_window_sz then
        match forEachOpt (shrinkBody val (s₀.init_window_sz - val)) dom store with
        | none => none
        | some store₂ => some ({ s₀ with init_window_sz := val }, store₂)
      else if s₀.init_window_sz < val then
        match forEachOpt growBody dom store with
        | none => none
        | some store₂ => some ({ s₀ with init_window_sz := val }, store₂)
      else some ({ s₀ with init_window_sz := val }, store)) = some (s₁, store₁)) :
    s₁.pending_capacity = s₀.pending_capacity ∧ ∀ j, store₁ j = store j := by
  by_cases hlt : val < s₀.init_window_sz
  · rw [if_pos hlt] at h
    cases hfe : forEachOpt (shrinkBody val (s₀.init_window_sz - val)) dom store with
    | none =>
      rw [hfe] at h
      exact absurd h (by simp)
    | some store₂ =>
      rw [hfe] at h
      simp only [Option.some.injEq, Prod.mk.injEq] at h
      obtain ⟨rfl, rfl⟩ := h
      exact ⟨rfl, forEachOpt_id _ (shrinkBody_id val _) dom store store₂ hfe⟩
  · rw [if_neg hlt] at h
    by_cases hgt : s₀.init_window_sz < val
    · rw [if_pos hgt] at h
      cases hfe : forEachOpt growBody dom store with
      | none =>
        rw [hfe] at h
        exact absurd h (by simp)
      | some store₂ =>
        rw [hfe] at h
        simp only [Option.some.injEq, Prod.mk.injEq] at h
        obtain ⟨rfl, rfl⟩ := h
        exact ⟨rfl, forEachOpt_id _ growBody_id dom store store₂ hfe⟩
    · rw [if_neg hgt] at h
      simp only [Option.some.injEq, Prod.mk.injEq] at h
      obtain ⟨rfl, rfl⟩ := h
      exact ⟨rfl, fun j => rfl⟩

theorem apply_settings_effects (settings : SettingsFrame) (dom : List Nat)
    (s : Send) (store : Store) (s₁ : Send) (store₁ : Store)
    (h : Send.apply_remote_settings settings dom s store = some (s₁, store₁)) :
    s₁.pending_capacity = s.pending_capacity ∧ ∀ j, store₁ j = store j := by
  cases hm : settings.max_concurrent_streams with
  | none =>
    cases hi : settings.initial_window_size with
    | none =>
      simp only [Send.apply_remote_settings, hm, hi, Option.some.injEq,
        Prod.mk.injEq] at h
      obtain ⟨rfl, rfl⟩ := h
      exact ⟨rfl, fun j => rfl⟩
    | some val =>
      simp only [Send.apply_remote_settings, hm, hi] at h
      exact apply_settings_effects_core dom s store s₁ store₁ val h
  | some v =>
    cases hi : settings.initial_window_size with
    | none =>
      simp only [Send.apply_remote_settings, hm, hi, Option.some.injEq,
        Prod.mk.injEq] at h
      obtain ⟨rfl, rfl⟩ := h
      exact ⟨rfl, fun j => rfl⟩
    | some val =>
      simp only [Send.apply_remote_settings, hm, hi] at h
      exact apply_settings_effects_core dom { s with max_streams := some v }
        store s₁ store₁ val h

/-- C9: after each exposed operation of the `Send` state — `open`,
`send_data`, `recv_stream_window_update`,
`recv_connection_window_update`, `apply_remote_settings` (when the
latter two return at all) — a stream is a member of `pending_capacity`
iff its `is_pending_send_capacity` flag is set, and no stream appears
in the queue more than once. -/
theorem pending_capacity_queue_invariant (s : Send) (store : Store)
    (hinv : QueueInv store s.pending_capacity) :
    (∀ b, QueueInv store (Send.open b s).2.pending_capacity) ∧
    (∀ sz es k r s₁ store₁,
      Send.send_data_at sz es k s store = some (r, s₁, store₁) →
      QueueInv store₁ s₁.pending_capacity) ∧
    (∀ inc k,
      QueueInv (Send.recv_stream_window_update_at inc k s store).2
        (Send.recv_stream_window_update_at inc k s store).1.pending_capacity) ∧
    (∀ inc,
      QueueInv (Send.recv_connection_window_update inc s store).2
        (Send.recv_connection_window_update inc s store).1.pending_capacity) ∧
    (∀ settings dom s₁ store₁,
      Send.apply_remote_settings settings dom s store = some (s₁, store₁) →
      QueueInv store₁ s₁.pending_capacity) := by
  refine ⟨?_, ?_, ?_, ?_, ?_⟩
  · intro b
    rw [open_pending b s]
    exact hinv
  · intro sz es k r s₁ store₁ h
    rw [Send.send_data_at] at h
    cases hsd : Send.send_data sz es s (store k) with
    | none =>
      rw [hsd] at h
      exact absurd h (by simp)
    | some v =>
      obtain ⟨r', s₁', st₁⟩ := v
      rw [hsd] at h
      simp only [Option.some.injEq, Prod.mk.injEq] at h
      obtain ⟨-, rfl, rfl⟩ := h
      obtain ⟨hflag, hpend⟩ := send_data_effects sz es s (store k) r' s₁' st₁ hsd
      rw [hpend]
      exact queueInv_update store s.pending_capacity k st₁ hinv hflag
  · intro inc k
    simp only [Send.recv_stream_window_update_at]
    rcases recv_stream_pending_cases inc k s (store k) with
      ⟨hpend, hflag⟩ | ⟨hold, hpend, hflag⟩
    · rw [hpend]
      exact queueInv_update store s.pending_capacity k _ hinv hflag
    · rw [hpend]
      have hknot : k ∉ s.pending_capacity := fun hk => by
        have := (hinv.2 k).mp hk
        rw [hold] at this
        exact absurd this (by simp)
      constructor
      · rw [← List.concat_eq_append]
        exact List.Nodup.concat hknot hinv.1
      · intro j
        by_cases hjk : j = k
        · subst hjk
          rw [updateStore_self, hflag]
          simp
        · rw [updateStore_ne _ _ _ _ hjk]
          rw [List.mem_append]
          constructor
          · rintro (hjq | hjk')
            · exact (hinv.2 j).mp hjq
            · exact absurd (List.mem_singleton.mp hjk') hjk
          · intro hfl
            exact Or.inl ((hinv.2 j).mpr hfl)
  · intro inc
    exact queueInv_retain _ store s.pending_capacity hinv
  · intro settings dom s₁ store₁ h
    obtain ⟨hpend, hstore⟩ :=
      apply_settings_effects settings dom s store s₁ store₁ h
    rw [hpend]
    exact queueInv_congr store store₁ s.pending_capacity hstore hinv

/-- C9 witness: from an empty queue over a store of idle streams, an
`open` call preserves the invariant. -/
theorem pending_capacity_queue_invariant_witness :
    QueueInv (fun _ => ⟨none, false, 0, false, false, false⟩)
      (Send.open false ⟨none, 1, 3, 100, [], false, ⟨5, 0⟩⟩).2.pending_capacity := by
  exact (pending_capacity_queue_invariant ⟨none, 1, 3, 100, [], false, ⟨5, 0⟩⟩
    (fun _ => ⟨none, false, 0, false, false, false⟩)
    ⟨List.nodup_nil, by simp⟩).1 false

end H2Send
